import Mathlib

/-!
Shallow embedding of the Connectify chat server (`src/api/index.ts`).

The repository wires four Socket.IO event handlers:

* the `connection` handler reads `socket.handshake.query.room` and, when that
  value is truthy (present and non-empty), calls `socket.join(room)`
  (src/api/index.ts lines 73-78);
* the `joinRoom` handler calls `socket.join(roomId)` unconditionally
  (src/api/index.ts lines 85-88);
* the `sendMessage` handler calls `chatIO.to(msg.room).emit("receiveMessage", msg)`
  (src/api/index.ts lines 96-100) — note `chatIO.to`, the server-level
  namespace, which does not exclude the sender;
* the `disconnect` handler only logs; Socket.IO itself removes the closed
  socket from every room it had joined (src/api/index.ts lines 107-109).

The room registry itself lives in the Socket.IO adapter (the external
transport collaborator): `socket.join(room)` inserts the socket id into the
set stored under the key `room` (creating the entry if absent; rooms are
`Set`s, so a repeated join is a no-op), `io.to(room).emit` delivers the
payload to every socket currently in that set, and on disconnect the adapter
deletes the socket from every room, dropping entries that become empty.
We embed that registry as an association list from room key to member list
kept duplicate-free per room, and the four handlers as a step function over
transport events.  Socket ids are natural numbers (opaque unique handles
assigned by the transport at connect time).
-/

abbrev SocketId := Nat

abbrev RoomId := String

/-- The `Message` interface of src/api/index.ts lines 53-58: four opaque
string fields; the server never validates or rewrites any of them. -/
structure Message where
  user : String
  text : String
  room : String
  time : String
deriving DecidableEq, Repr

/-- The registry state owned by the Socket.IO adapter: the mapping from room
key to the list of member socket ids. -/
structure ServerState where
  rooms : List (RoomId × List SocketId)
deriving DecidableEq, Repr

/-- The state of a freshly started server: no rooms. -/
def initState : ServerState := ⟨[]⟩

/-- Member set of a room key: the list stored under the key, `[]` when the
key is absent (an unknown room has no members). -/
def lookupRoom (r : RoomId) : List (RoomId × List SocketId) → List SocketId
  | [] => []
  | (r', ms) :: rest => if r' = r then ms else lookupRoom r rest

/-- Current members of room `r` — what `io.to(r)` resolves to. -/
def roomMembers (r : RoomId) (st : ServerState) : List SocketId :=
  lookupRoom r st.rooms

/-- Model of `socket.join(room)` in the Socket.IO adapter: add `sid` to the set stored
under `room`, creating the entry when the key is absent; since rooms are
sets, adding an id that is already present changes nothing. -/
def addToRoom (sid : SocketId) (r : RoomId) :
    List (RoomId × List SocketId) → List (RoomId × List SocketId)
  | [] => [(r, [sid])]
  | (r', ms) :: rest =>
    if r' = r then (r', if sid ∈ ms then ms else ms ++ [sid]) :: rest
    else (r', ms) :: addToRoom sid r rest

/-- Disconnect cleanup in the Socket.IO adapter: remove `sid` from every
room, deleting room entries that become empty. -/
def removeFromAll (sid : SocketId) (l : List (RoomId × List SocketId)) :
    List (RoomId × List SocketId) :=
  (l.map (fun p => (p.1, p.2.filter (fun s => s ≠ sid)))).filter
    (fun p => ¬ p.2 = [])

/-- Transport-level events delivered, serialized, to the server's handlers.
`connect` carries the optional `room` query parameter (`none` models an
absent/undefined query value). -/
inductive Event where
  | connect (sid : SocketId) (queryRoom : Option String)
  | joinRoom (sid : SocketId) (roomId : RoomId)
  | sendMessage (sid : SocketId) (msg : Message)
  | disconnect (sid : SocketId)
deriving DecidableEq, Repr

/-- State transition of one event, mirroring the handlers of
src/api/index.ts: the `connection` handler joins the query room only when it
is truthy (present and non-empty, JS string truthiness); the `joinRoom`
handler joins unconditionally; `sendMessage` does not touch the registry;
`disconnect` triggers the adapter's leave-all cleanup. -/
def step (st : ServerState) : Event → ServerState
  | .connect _ none => st
  | .connect sid (some r) => if r = "" then st else ⟨addToRoom sid r st.rooms⟩
  | .joinRoom sid r => ⟨addToRoom sid r st.rooms⟩
  | .sendMessage _ _ => st
  | .disconnect sid => ⟨removeFromAll sid st.rooms⟩

/-- Outbound deliveries produced by one event: only `sendMessage` delivers,
and it emits the incoming `msg`, unmodified, to every current member of
`msg.room` — `chatIO.to(msg.room).emit("receiveMessage", msg)` at
src/api/index.ts line 98.  The sender argument is unused: the server-level
`chatIO.to` does not exclude the emitting socket. -/
def deliveries (st : ServerState) : Event → List (SocketId × Message)
  | .sendMessage _ msg => (roomMembers msg.room st).map (fun c => (c, msg))
  | _ => []

/-- Fold a serialized event trace through `step`. -/
def applyEvents (st : ServerState) : List Event → ServerState
  | [] => st
  | e :: es => applyEvents (step st e) es

/-- The flat, ordered delivery trace of a serialized event list: deliveries
of each event, in event order. -/
def traceDeliveries (st : ServerState) : List Event → List (SocketId × Message)
  | [] => []
  | e :: es => deliveries st e ++ traceDeliveries (step st e) es

/-- Events that can add socket `c` to a room: a connect by `c` carrying a
query room, or an explicit `joinRoom` by `c`.  The transport layer assigns
fresh ids, so after `c` disconnects no later event is of this shape. -/
def canJoin (c : SocketId) : Event → Bool
  | .connect c' (some _) => c' == c
  | .connect _ none => false
  | .joinRoom c' _ => c' == c
  | .sendMessage _ _ => false
  | .disconnect _ => false

/-- Events that can change the member set of room `R`: a connect whose query
room is `R`, an explicit join into `R`, or any disconnect (which leaves every
room). -/
def touchesRoom (R : RoomId) : Event → Bool
  | .connect _ (some r) => r == R
  | .connect _ none => false
  | .joinRoom _ r => r == R
  | .sendMessage _ _ => false
  | .disconnect _ => true

/-- JavaScript number value as far as the port computation observes it:
`NaN`, a signed infinity, or a finite value kept as an exact rational. -/
inductive JsNum where
  | nan
  | inf (neg : Bool)
  | num (q : ℚ)
deriving DecidableEq, Repr

/-- Whitespace stripped by JavaScript string-to-number coercion: the
WhiteSpace and LineTerminator code points of the StrWhiteSpaceChar
production (space, tab, VT, FF, CR, LF, NBSP, BOM, the Unicode space
separators, and the line/paragraph separators). -/
def jsIsWhite (c : Char) : Bool :=
  c.isWhitespace ||
    c.toNat ∈ [0x0B, 0x0C, 0xA0, 0x1680, 0x2000, 0x2001, 0x2002, 0x2003,
      0x2004, 0x2005, 0x2006, 0x2007, 0x2008, 0x2009, 0x200A, 0x2028,
      0x2029, 0x202F, 0x205F, 0x3000, 0xFEFF]

/-- Leading and trailing whitespace removed from the characters of `s`, as
JavaScript number coercion does before parsing. -/
def jsStrTrim (s : String) : List Char :=
  ((s.toList.dropWhile jsIsWhite).reverse.dropWhile jsIsWhite).reverse

/-- Value of a string of decimal digits (validity is checked by callers). -/
def decValue (cs : List Char) : Nat :=
  cs.foldl (fun acc c => acc * 10 + (c.toNat - '0'.toNat)) 0

/-- Value of one hexadecimal digit, `none` for any other character. -/
def hexDigitVal (c : Char) : Option Nat :=
  if c.isDigit then some (c.toNat - '0'.toNat)
  else if 'a'.toNat ≤ c.toNat ∧ c.toNat ≤ 'f'.toNat then
    some (c.toNat - 'a'.toNat + 10)
  else if 'A'.toNat ≤ c.toNat ∧ c.toNat ≤ 'F'.toNat then
    some (c.toNat - 'A'.toNat + 10)
  else none

/-- Value of a digit string in radix `b ≤ 16`, `none` when any character is
not a digit of that radix.  The empty string yields `some 0`; callers reject
it separately. -/
def radixValue (b : Nat) (cs : List Char) : Option Nat :=
  cs.foldl (fun acc c =>
    match acc, hexDigitVal c with
    | some a, some d => if d < b then some (a * b + d) else none
    | _, _ => none) (some 0)

/-- The ExponentPart that follows `e`/`E` in a JS decimal literal: an
optional sign and a non-empty run of decimal digits filling the rest of the
string; anything else is a parse failure. -/
def parseExp (cs : List Char) : Option Int :=
  match cs with
  | '+' :: ds =>
    if ¬ ds = [] ∧ ds.all Char.isDigit then some (decValue ds) else none
  | '-' :: ds =>
    if ¬ ds = [] ∧ ds.all Char.isDigit then some (-(decValue ds : Int)) else none
  | ds =>
    if ¬ ds = [] ∧ ds.all Char.isDigit then some (decValue ds) else none

/-- The unsigned decimal core of a JS StrDecimalLiteral
(`digits [. digits] [exp]` or `. digits [exp]`), returned in exact
scientific form: a mantissa `m` and a base-10 exponent `e` with value
`m * 10 ^ e`.  Any leftover character is a parse failure. -/
def parseDecCore (cs : List Char) : Option (Nat × Int) :=
  let intD := cs.takeWhile Char.isDigit
  let rest1 := cs.dropWhile Char.isDigit
  match rest1 with
  | [] => if intD = [] then none else some (decValue intD, 0)
  | '.' :: rest2 =>
    let fracD := rest2.takeWhile Char.isDigit
    let rest3 := rest2.dropWhile Char.isDigit
    if intD = [] ∧ fracD = [] then none
    else
      let m := decValue (intD ++ fracD)
      match rest3 with
      | [] => some (m, -(fracD.length : Int))
      | e :: rest4 =>
        if e = 'e' ∨ e = 'E' then
          (parseExp rest4).map (fun k => (m, k - fracD.length))
        else none
  | e :: rest2 =>
    if (e = 'e' ∨ e = 'E') ∧ ¬ intD = [] then
      (parseExp rest2).map (fun k => (decValue intD, k))
    else none

/-- Exact rational value of a signed scientific pair: `± m * 10 ^ e`. -/
def sciToRat (neg : Bool) (m : Nat) (e : Int) : ℚ :=
  match e with
  | .ofNat k => mkRat (if neg then -(m * 10 ^ k : Int) else (m * 10 ^ k : Int)) 1
  | .negSucc k => mkRat (if neg then -(m : Int) else (m : Int)) (10 ^ (k + 1))

/-- Whether `m * 10 ^ e` rounds to zero as an IEEE-754 double: true iff its
magnitude is at most `2 ^ (-1075)`, half the least subnormal (the tie rounds
to even, that is to zero).  Stated by integer cross-multiplication. -/
def sciUnderflow (m : Nat) (e : Int) : Bool :=
  match e with
  | .ofNat _ => false
  | .negSucc k => m * 2 ^ 1075 ≤ 10 ^ (k + 1)

/-- Whether `m * 10 ^ e` rounds to infinity as an IEEE-754 double: true iff
its magnitude is at least `2 ^ 1024 - 2 ^ 970`, the rounding boundary above
the largest finite double.  Stated by integer cross-multiplication. -/
def sciOverflow (m : Nat) (e : Int) : Bool :=
  match e with
  | .ofNat k => 2 ^ 1024 - 2 ^ 970 ≤ m * 10 ^ k
  | .negSucc k => (2 ^ 1024 - 2 ^ 970) * 10 ^ (k + 1) ≤ m

/-- The double value of a parsed literal, as far as any claim observes it:
literals beyond the IEEE-754 underflow threshold become zero (as in JS,
where such a port falls back to the default) and literals beyond the
overflow threshold become the corresponding signed infinity; in-range values
are kept mathematically exact.  Sub-ULP rounding of in-range values and the
sign of negative zero are not modelled: neither can change the
zero / non-zero / NaN classification that the `||` fallback observes. -/
def fitDouble (neg : Bool) (m : Nat) (e : Int) : JsNum :=
  if m = 0 then .num 0
  else if sciUnderflow m e then .num 0
  else if sciOverflow m e then .inf neg
  else .num (sciToRat neg m e)

/-- A sign-stripped decimal string as a JS number: the literal `Infinity`
(case-sensitive), or a decimal literal via `parseDecCore`; anything else is
`NaN`. -/
def parseUnsignedDec (neg : Bool) (cs : List Char) : JsNum :=
  if cs = "Infinity".toList then .inf neg
  else
    match parseDecCore cs with
    | some (m, e) => fitDouble neg m e
    | none => .nan

/-- JavaScript `Number(s)` on a string, per the StrNumericLiteral grammar:
whitespace is trimmed; the empty string coerces to `0`; `0x`/`0X`, `0o`/`0O`
and `0b`/`0B` prefixes introduce unsigned hex, octal and binary integers
(a sign before them yields `NaN`, as in JS); otherwise an optionally signed
decimal literal (`Infinity`, integer, fraction and/or exponent forms);
anything else is `NaN`. -/
def jsNumberOfString (s : String) : JsNum :=
  match jsStrTrim s with
  | [] => .num 0
  | '-' :: rest => parseUnsignedDec true rest
  | '+' :: rest => parseUnsignedDec false rest
  | '0' :: x :: ds =>
    if x = 'x' ∨ x = 'X' then
      match radixValue 16 ds with
      | some v => if ds = [] then .nan else fitDouble false v 0
      | none => .nan
    else if x = 'o' ∨ x = 'O' then
      match radixValue 8 ds with
      | some v => if ds = [] then .nan else fitDouble false v 0
      | none => .nan
    else if x = 'b' ∨ x = 'B' then
      match radixValue 2 ds with
      | some v => if ds = [] then .nan else fitDouble false v 0
      | none => .nan
    else parseUnsignedDec false ('0' :: x :: ds)
  | cs => parseUnsignedDec false cs

/-- Model of `Number(process.env.CHAT_PORT)`: an unset environment variable is
`undefined`, and `Number(undefined)` is `NaN`. -/
def jsNumber : Option String → JsNum
  | none => .nan
  | some s => jsNumberOfString s

/-- JavaScript `x || d` for a number `x`: `NaN` and `±0` are falsy and
give `d`; any other value, infinities included, is kept. -/
def jsOrDefault (x : JsNum) (d : ℚ) : JsNum :=
  match x with
  | .nan => .num d
  | .inf b => .inf b
  | .num q => if q = 0 then .num d else .num q

/-- The listen port, src/api/index.ts line 158:
`const port = Number(process.env.CHAT_PORT) || 3001`. -/
def port (chatPortEnv : Option String) : JsNum :=
  jsOrDefault (jsNumber chatPortEnv) 3001

/-! Helper lemmas about the registry primitives. -/

theorem lookupRoom_addToRoom_other (sid : SocketId) (r r₀ : RoomId) (h : ¬ r₀ = r)
    (l : List (RoomId × List SocketId)) :
    lookupRoom r (addToRoom sid r₀ l) = lookupRoom r l := by
  induction l with
  | nil => simp [addToRoom, lookupRoom, h]
  | cons p rest ih =>
    obtain ⟨r', ms⟩ := p
    by_cases h1 : r' = r₀
    · subst h1
      simp [addToRoom, lookupRoom, h]
    · simp only [addToRoom, h1, if_neg h1]
      by_cases h2 : r' = r
      · simp [lookupRoom, h2]
      · simp [lookupRoom, h2, ih]

theorem mem_lookupRoom_addToRoom_self (sid : SocketId) (r : RoomId)
    (l : List (RoomId × List SocketId)) :
    sid ∈ lookupRoom r (addToRoom sid r l) := by
  induction l with
  | nil => simp [addToRoom, lookupRoom]
  | cons p rest ih =>
    obtain ⟨r', ms⟩ := p
    by_cases h1 : r' = r
    · subst h1
      by_cases h2 : sid ∈ ms
      · simp [addToRoom, lookupRoom, h2]
      · simp [addToRoom, lookupRoom, h2]
    · simp [addToRoom, lookupRoom, h1, ih]

theorem addToRoom_idem (sid : SocketId) (r : RoomId)
    (l : List (RoomId × List SocketId)) :
    addToRoom sid r (addToRoom sid r l) = addToRoom sid r l := by
  induction l with
  | nil => simp [addToRoom]
  | cons p rest ih =>
    obtain ⟨r', ms⟩ := p
    by_cases h1 : r' = r
    · subst h1
      by_cases h2 : sid ∈ ms
      · simp [addToRoom, h2]
      · simp [addToRoom, h2]
    · simp [addToRoom, h1, ih]

/-- Socket `c` belongs to no room of the registry list `l`. -/
def InNoRoom (c : SocketId) (l : List (RoomId × List SocketId)) : Prop :=
  ∀ p ∈ l, c ∉ p.2

theorem inNoRoom_removeFromAll_self (c : SocketId)
    (l : List (RoomId × List SocketId)) :
    InNoRoom c (removeFromAll c l) := by
  intro p hp hc
  simp only [removeFromAll, List.mem_filter, List.mem_map] at hp
  obtain ⟨⟨q, hq, hpq⟩, _⟩ := hp
  subst hpq
  simp at hc

theorem inNoRoom_addToRoom {c sid : SocketId} {l : List (RoomId × List SocketId)}
    (h : InNoRoom c l) (hne : ¬ sid = c) (r : RoomId) :
    InNoRoom c (addToRoom sid r l) := by
  induction l with
  | nil =>
    intro p hp hc
    simp only [addToRoom, List.mem_singleton] at hp
    subst hp
    simp only [List.mem_singleton] at hc
    exact hne hc.symm
  | cons q rest ih =>
    obtain ⟨r', ms⟩ := q
    have hhead : c ∉ ms := h (r', ms) (List.mem_cons_self _ _)
    have htail : InNoRoom c rest := fun p hp => h p (List.mem_cons_of_mem _ hp)
    intro p hp hc
    by_cases h1 : r' = r
    · subst h1
      rw [addToRoom, if_pos rfl] at hp
      rcases List.mem_cons.mp hp with hp | hp
      · subst hp
        by_cases h2 : sid ∈ ms
        · simp only [if_pos h2] at hc
          exact hhead hc
        · simp only [if_neg h2, List.mem_append, List.mem_singleton] at hc
          rcases hc with hc | hc
          · exact hhead hc
          · exact hne hc.symm
      · exact htail p hp hc
    · simp only [addToRoom, if_neg h1, List.mem_cons] at hp
      rcases hp with hp | hp
      · subst hp
        exact hhead hc
      · exact ih htail p hp hc

theorem inNoRoom_removeFromAll {c : SocketId} {l : List (RoomId × List SocketId)}
    (h : InNoRoom c l) (sid : SocketId) :
    InNoRoom c (removeFromAll sid l) := by
  intro p hp hc
  simp only [removeFromAll, List.mem_filter, List.mem_map] at hp
  obtain ⟨⟨q, hq, hpq⟩, _⟩ := hp
  subst hpq
  simp only [List.mem_filter] at hc
  exact h q hq hc.1

theorem inNoRoom_step {c : SocketId} {st : ServerState} {e : Event}
    (h : InNoRoom c st.rooms) (hcj : canJoin c e = false) :
    InNoRoom c (step st e).rooms := by
  cases e with
  | connect sid q =>
    cases q with
    | none => exact h
    | some r =>
      have hne : ¬ sid = c := by
        simp only [canJoin, beq_eq_false_iff_ne, ne_eq] at hcj
        exact hcj
      by_cases hr : r = ""
      · simp only [step, if_pos hr]
        exact h
      · simp only [step, if_neg hr]
        exact inNoRoom_addToRoom h hne r
  | joinRoom sid r =>
    have hne : ¬ sid = c := by
      simp only [canJoin, beq_eq_false_iff_ne, ne_eq] at hcj
      exact hcj
    exact inNoRoom_addToRoom h hne r
  | sendMessage sid m => exact h
  | disconnect sid => exact inNoRoom_removeFromAll h sid

theorem not_mem_lookupRoom_of_inNoRoom {c : SocketId}
    {l : List (RoomId × List SocketId)} (h : InNoRoom c l) (r : RoomId) :
    c ∉ lookupRoom r l := by
  induction l with
  | nil => simp [lookupRoom]
  | cons p rest ih =>
    obtain ⟨r', ms⟩ := p
    have hhead : c ∉ ms := h (r', ms) (List.mem_cons_self _ _)
    have htail : InNoRoom c rest := fun q hq => h q (List.mem_cons_of_mem _ hq)
    by_cases h1 : r' = r
    · simpa [lookupRoom, h1] using hhead
    · simpa [lookupRoom, h1] using ih htail

theorem not_mem_deliveries_of_inNoRoom {c : SocketId} {st : ServerState}
    (h : InNoRoom c st.rooms) (e : Event) (m : Message) :
    (c, m) ∉ deliveries st e := by
  cases e with
  | connect sid q => simp [deliveries]
  | joinRoom sid r => simp [deliveries]
  | disconnect sid => simp [deliveries]
  | sendMessage sid msg =>
    intro hmem
    simp only [deliveries, List.mem_map] at hmem
    obtain ⟨x, hx, hpair⟩ := hmem
    have hxc : x = c := congrArg Prod.fst hpair
    subst hxc
    exact not_mem_lookupRoom_of_inNoRoom h msg.room hx

theorem not_mem_traceDeliveries_of_inNoRoom {c : SocketId} {st : ServerState}
    {es : List Event} (h : InNoRoom c st.rooms)
    (hes : ∀ e ∈ es, canJoin c e = false) (m : Message) :
    (c, m) ∉ traceDeliveries st es := by
  induction es generalizing st with
  | nil => simp [traceDeliveries]
  | cons e rest ih =>
    simp only [traceDeliveries, List.mem_append]
    intro hmem
    rcases hmem with hmem | hmem
    · exact not_mem_deliveries_of_inNoRoom h e m hmem
    · have h1 : canJoin c e = false := hes e (List.mem_cons_self _ _)
      have h2 : ∀ e' ∈ rest, canJoin c e' = false :=
        fun e' he' => hes e' (List.mem_cons_of_mem _ he')
      exact ih (inNoRoom_step h h1) h2 hmem

theorem roomMembers_step_of_not_touches {R : RoomId} {e : Event}
    (st : ServerState) (h : touchesRoom R e = false) :
    roomMembers R (step st e) = roomMembers R st := by
  cases e with
  | connect sid q =>
    cases q with
    | none => rfl
    | some r =>
      have hne : ¬ r = R := by
        simp only [touchesRoom, beq_eq_false_iff_ne, ne_eq] at h
        exact h
      by_cases hr : r = ""
      · simp [step, hr]
      · simp only [step, if_neg hr, roomMembers]
        exact lookupRoom_addToRoom_other sid R r hne st.rooms
  | joinRoom sid r =>
    have hne : ¬ r = R := by
      simp only [touchesRoom, beq_eq_false_iff_ne, ne_eq] at h
      exact h
    exact lookupRoom_addToRoom_other sid R r hne st.rooms
  | sendMessage sid m => rfl
  | disconnect sid => simp [touchesRoom] at h

theorem roomMembers_applyEvents_of_not_touches {R : RoomId} {es : List Event}
    (st : ServerState) (hes : ∀ e ∈ es, touchesRoom R e = false) :
    roomMembers R (applyEvents st es) = roomMembers R st := by
  induction es generalizing st with
  | nil => rfl
  | cons e rest ih =>
    have h1 : touchesRoom R e = false := hes e (List.mem_cons_self _ _)
    have h2 : ∀ e' ∈ rest, touchesRoom R e' = false :=
      fun e' he' => hes e' (List.mem_cons_of_mem _ he')
    calc roomMembers R (applyEvents (step st e) rest)
        = roomMembers R (step st e) := ih (step st e) h2
      _ = roomMembers R st := roomMembers_step_of_not_touches st h1

theorem traceDeliveries_append (st : ServerState) (xs ys : List Event) :
    traceDeliveries st (xs ++ ys)
      = traceDeliveries st xs ++ traceDeliveries (applyEvents st xs) ys := by
  induction xs generalizing st with
  | nil => simp [traceDeliveries, applyEvents]
  | cons x xs ih => simp [traceDeliveries, applyEvents, ih, List.append_assoc]

/-! Claim theorems. -/

/-- C1: a broadcast to room `R = m.room` is delivered to exactly the set of
connections that are members of `R` in the registry state at the moment of
the `sendMessage` call: a connection receives some copy of the fan-out iff
it is currently a member of `m.room`.  Since `deliveries` reads only the
state at the call, membership in a different room, a join performed after
the broadcast, or a leave performed before it cannot put a connection into
this delivery set. -/
theorem broadcast_delivers_exactly_current_members
    (st : ServerState) (s c : SocketId) (m : Message) :
    (∃ mr, (c, mr) ∈ deliveries st (Event.sendMessage s m))
      ↔ c ∈ roomMembers m.room st := by
  constructor
  · rintro ⟨mr, hmr⟩
    simp only [deliveries, List.mem_map] at hmr
    obtain ⟨x, hx, hpair⟩ := hmr
    have hxc : x = c := congrArg Prod.fst hpair
    subst hxc
    exact hx
  · intro hc
    exact ⟨m, List.mem_map_of_mem _ hc⟩

/-- C2: when the sender `s` is itself a member of the destination room, the
server-level `chatIO.to(msg.room).emit` fan-out includes the sender: `s`
receives its own message back, along with every other current member. -/
theorem sender_receives_own_broadcast
    (st : ServerState) (s : SocketId) (m : Message)
    (h : s ∈ roomMembers m.room st) :
    (s, m) ∈ deliveries st (Event.sendMessage s m) ∧
      ∀ c ∈ roomMembers m.room st, (c, m) ∈ deliveries st (Event.sendMessage s m) := by
  constructor
  · exact List.mem_map_of_mem _ h
  · intro c hc
    exact List.mem_map_of_mem _ hc

theorem sender_receives_own_broadcast_witness :
    1 ∈ roomMembers "general"
        (applyEvents initState
          [Event.connect 1 (some "general"), Event.connect 2 (some "general")]) ∧
      ((1, Message.mk "alice" "hi" "general" "t1") ∈
          deliveries
            (applyEvents initState
              [Event.connect 1 (some "general"), Event.connect 2 (some "general")])
            (Event.sendMessage 1 (Message.mk "alice" "hi" "general" "t1")) ∧
        ∀ c ∈ roomMembers "general"
            (applyEvents initState
              [Event.connect 1 (some "general"), Event.connect 2 (some "general")]),
          (c, Message.mk "alice" "hi" "general" "t1") ∈
            deliveries
              (applyEvents initState
                [Event.connect 1 (some "general"), Event.connect 2 (some "general")])
              (Event.sendMessage 1 (Message.mk "alice" "hi" "general" "t1")) ) :=
  ⟨by decide, sender_receives_own_broadcast _ 1 _ (by decide)⟩

/-- C3 counterexample: the claim that an empty room identifier is a no-op on
both join paths is false on the `joinRoom` path.  The `joinRoom` handler
(src/api/index.ts lines 85-88) calls `socket.join(roomId)` with no guard, so
a `joinRoom` request carrying the empty string creates a room whose key is
the empty string and adds the connection to it: the registry state changes
and `roomMembers ""` becomes `[0]`. -/
theorem joinRoom_empty_key_is_not_noop :
    applyEvents initState [Event.connect 0 none, Event.joinRoom 0 ""]
        ≠ applyEvents initState [Event.connect 0 none] ∧
      roomMembers ""
          (applyEvents initState [Event.connect 0 none, Event.joinRoom 0 ""])
        = [0] := by
  decide

/-- C3 amended: an empty or undefined room identifier is a no-op only on the
connect-time query path, where the handler guards with JS truthiness
(`if (room)`, src/api/index.ts lines 75-78); the explicit `joinRoom` handler
performs no such check and joins whatever identifier the client supplies,
including the empty string, creating a room with the empty key. -/
theorem empty_room_noop_on_query_path_only
    (st : ServerState) (sid : SocketId) :
    step st (Event.connect sid none) = st ∧
      step st (Event.connect sid (some "")) = st ∧
      sid ∈ roomMembers "" (step st (Event.joinRoom sid "")) := by
  refine ⟨rfl, by simp [step], ?_⟩
  exact mem_lookupRoom_addToRoom_self sid "" st.rooms

/-- C5: the operation `join(C, R)` is idempotent.  A second `joinRoom` by the same socket
for the same room leaves the registry state (hence C's memberships and R's
member set) literally equal to the state after the first call; the handler
is a total function, so the second call raises no error.  This holds for
every room identifier, in particular every non-empty one. -/
theorem join_idempotent (st : ServerState) (c : SocketId) (r : RoomId) :
    step (step st (Event.joinRoom c r)) (Event.joinRoom c r)
      = step st (Event.joinRoom c r) := by
  simp only [step]
  exact congrArg ServerState.mk (addToRoom_idem c r st.rooms)

/-- C6: a broadcast whose destination room currently has zero members (an
unknown key, or a key everyone has left) produces zero delivery attempts and
leaves the registry state unchanged; the handler is a total function, so no
error is raised. -/
theorem broadcast_empty_room_silent_noop
    (st : ServerState) (s : SocketId) (m : Message)
    (h : roomMembers m.room st = []) :
    deliveries st (Event.sendMessage s m) = [] ∧
      step st (Event.sendMessage s m) = st := by
  constructor
  · simp [deliveries, h]
  · rfl

theorem broadcast_empty_room_silent_noop_witness :
    roomMembers "ghost"
        (applyEvents initState [Event.connect 1 (some "general")]) = [] ∧
      (deliveries (applyEvents initState [Event.connect 1 (some "general")])
          (Event.sendMessage 1 (Message.mk "carl" "anyone" "ghost" "t9")) = [] ∧
        step (applyEvents initState [Event.connect 1 (some "general")])
            (Event.sendMessage 1 (Message.mk "carl" "anyone" "ghost" "t9"))
          = applyEvents initState [Event.connect 1 (some "general")]) :=
  ⟨by decide, broadcast_empty_room_silent_noop _ 1 _ (by decide)⟩

/-- C8: the fan-out forwards the inbound payload exactly as received — every
copy delivered by a `sendMessage` is the incoming message itself, all four
fields (`user`, `text`, `room`, `time`) unmodified, with no validation or
reformatting; `m` here is arbitrary, so this covers empty text, an empty
user, and a malformed timestamp. -/
theorem broadcast_forwards_payload_unmodified
    (st : ServerState) (s c : SocketId) (m mr : Message)
    (h : (c, mr) ∈ deliveries st (Event.sendMessage s m)) :
    mr.user = m.user ∧ mr.text = m.text ∧ mr.room = m.room ∧ mr.time = m.time := by
  simp only [deliveries, List.mem_map] at h
  obtain ⟨x, hx, hpair⟩ := h
  have hm : m = mr := congrArg Prod.snd hpair
  subst hm
  exact ⟨rfl, rfl, rfl, rfl⟩

theorem broadcast_forwards_payload_unmodified_witness :
    ((1 : SocketId), Message.mk "" "" "g" "not-a-timestamp") ∈
        deliveries (applyEvents initState [Event.connect 1 (some "g")])
          (Event.sendMessage 1 (Message.mk "" "" "g" "not-a-timestamp")) ∧
      ((Message.mk "" "" "g" "not-a-timestamp").user
            = (Message.mk "" "" "g" "not-a-timestamp").user ∧
        (Message.mk "" "" "g" "not-a-timestamp").text
            = (Message.mk "" "" "g" "not-a-timestamp").text ∧
        (Message.mk "" "" "g" "not-a-timestamp").room
            = (Message.mk "" "" "g" "not-a-timestamp").room ∧
        (Message.mk "" "" "g" "not-a-timestamp").time
            = (Message.mk "" "" "g" "not-a-timestamp").time) :=
  ⟨by decide,
    broadcast_forwards_payload_unmodified
      (applyEvents initState [Event.connect 1 (some "g")]) 1 1
      (Message.mk "" "" "g" "not-a-timestamp")
      (Message.mk "" "" "g" "not-a-timestamp") (by decide)⟩

/-- C9: the sender need not be a member of the destination room.  The
`sendMessage` handler fans out to `msg.room`'s member set regardless of who
emitted: every current member receives the message even when the sender `s`
never joined, and in that case `s` itself receives no copy, because delivery
goes only to the member set. -/
theorem nonmember_sender_broadcasts_without_self_copy
    (st : ServerState) (s : SocketId) (m : Message)
    (h : s ∉ roomMembers m.room st) :
    (∀ c ∈ roomMembers m.room st, (c, m) ∈ deliveries st (Event.sendMessage s m)) ∧
      ∀ mr, (s, mr) ∉ deliveries st (Event.sendMessage s m) := by
  constructor
  · intro c hc
    exact List.mem_map_of_mem _ hc
  · intro mr hmem
    simp only [deliveries, List.mem_map] at hmem
    obtain ⟨x, hx, hpair⟩ := hmem
    have hxs : x = s := congrArg Prod.fst hpair
    subst hxs
    exact h hx

theorem nonmember_sender_broadcasts_without_self_copy_witness :
    (5 : SocketId) ∉ roomMembers "g"
        (applyEvents initState [Event.connect 1 (some "g"), Event.connect 5 none]) ∧
      ((∀ c ∈ roomMembers "g"
            (applyEvents initState
              [Event.connect 1 (some "g"), Event.connect 5 none]),
          (c, Message.mk "eve" "hello" "g" "t3") ∈
            deliveries
              (applyEvents initState
                [Event.connect 1 (some "g"), Event.connect 5 none])
              (Event.sendMessage 5 (Message.mk "eve" "hello" "g" "t3"))) ∧
        ∀ mr, ((5 : SocketId), mr) ∉
            deliveries
              (applyEvents initState
                [Event.connect 1 (some "g"), Event.connect 5 none])
              (Event.sendMessage 5 (Message.mk "eve" "hello" "g" "t3"))) :=
  ⟨by decide,
    nonmember_sender_broadcasts_without_self_copy
      (applyEvents initState [Event.connect 1 (some "g"), Event.connect 5 none]) 5
      (Message.mk "eve" "hello" "g" "t3") (by decide)⟩

/-- C4: once a connection `c` disconnects, the adapter's leave-all cleanup
removes it from every room, so `c` is a member of no room, and along any
subsequent serialized event trace in which `c` is never joined again (the
transport assigns fresh ids, so a destroyed connection emits no further
connect or joinRoom), no broadcast ever delivers to `c`: `c` never again
appears in a delivery set. -/
theorem disconnected_socket_receives_nothing
    (st : ServerState) (c : SocketId) (es : List Event)
    (hes : ∀ e ∈ es, canJoin c e = false) :
    (∀ r, c ∉ roomMembers r (step st (Event.disconnect c))) ∧
      ∀ m, (c, m) ∉ traceDeliveries (step st (Event.disconnect c)) es := by
  have hno : InNoRoom c (step st (Event.disconnect c)).rooms :=
    inNoRoom_removeFromAll_self c st.rooms
  constructor
  · intro r
    exact not_mem_lookupRoom_of_inNoRoom hno r
  · intro m
    exact not_mem_traceDeliveries_of_inNoRoom hno hes m

theorem disconnected_socket_receives_nothing_witness :
    (∀ e ∈ [Event.sendMessage 2 (Message.mk "bob" "still here" "g" "t5")],
        canJoin 1 e = false) ∧
      ((∀ r, 1 ∉ roomMembers r
            (step
              (applyEvents initState
                [Event.connect 1 (some "g"), Event.connect 2 (some "g")])
              (Event.disconnect 1))) ∧
        ∀ m, ((1 : SocketId), m) ∉
            traceDeliveries
              (step
                (applyEvents initState
                  [Event.connect 1 (some "g"), Event.connect 2 (some "g")])
                (Event.disconnect 1))
              [Event.sendMessage 2 (Message.mk "bob" "still here" "g" "t5")]) :=
  ⟨by decide,
    disconnected_socket_receives_nothing
      (applyEvents initState
        [Event.connect 1 (some "g"), Event.connect 2 (some "g")])
      1 [Event.sendMessage 2 (Message.mk "bob" "still here" "g" "t5")]
      (by decide)⟩

/-- C7: per-member ordering of broadcasts to the same room.  If
`sendMessage` for `m1` is handled before `sendMessage` for `m2`, both
destined to the same room, and none of the serialized events in between can
change that room's member set (no join into it and no disconnect), then any
connection `c` that is a member at the first broadcast (hence, by
invariance, also at the second) receives `m1` strictly before `m2` in the
flat, ordered delivery trace. -/
theorem broadcast_order_preserved_per_member
    (st : ServerState) (es2 es3 : List Event) (s1 s2 c : SocketId)
    (m1 m2 : Message) (hroom : m1.room = m2.room)
    (hes2 : ∀ e ∈ es2, touchesRoom m1.room e = false)
    (hc : c ∈ roomMembers m1.room st) :
    ∃ l1 l2 l3,
      traceDeliveries st
          (Event.sendMessage s1 m1 :: (es2 ++ Event.sendMessage s2 m2 :: es3))
        = l1 ++ (c, m1) :: (l2 ++ (c, m2) :: l3) := by
  have hd1 : (c, m1) ∈ deliveries st (Event.sendMessage s1 m1) :=
    List.mem_map_of_mem _ hc
  obtain ⟨p1, p2, hsplit1⟩ := List.append_of_mem hd1
  have hinv : roomMembers m1.room (applyEvents st es2) = roomMembers m1.room st :=
    roomMembers_applyEvents_of_not_touches st hes2
  have hc2 : c ∈ roomMembers m2.room (applyEvents st es2) := by
    rw [← hroom, hinv]
    exact hc
  have hd2 : (c, m2) ∈ deliveries (applyEvents st es2) (Event.sendMessage s2 m2) :=
    List.mem_map_of_mem _ hc2
  obtain ⟨q1, q2, hsplit2⟩ := List.append_of_mem hd2
  refine ⟨p1, p2 ++ traceDeliveries st es2 ++ q1,
    q2 ++ traceDeliveries (applyEvents st es2) es3, ?_⟩
  have hstep1 : step st (Event.sendMessage s1 m1) = st := rfl
  have hstep2 :
      step (applyEvents st es2) (Event.sendMessage s2 m2) = applyEvents st es2 :=
    rfl
  calc traceDeliveries st
          (Event.sendMessage s1 m1 :: (es2 ++ Event.sendMessage s2 m2 :: es3))
      = deliveries st (Event.sendMessage s1 m1)
          ++ traceDeliveries st (es2 ++ Event.sendMessage s2 m2 :: es3) := by
        rw [traceDeliveries, hstep1]
    _ = deliveries st (Event.sendMessage s1 m1)
          ++ (traceDeliveries st es2
            ++ (deliveries (applyEvents st es2) (Event.sendMessage s2 m2)
              ++ traceDeliveries (applyEvents st es2) es3)) := by
        rw [traceDeliveries_append, traceDeliveries, hstep2]
    _ = (p1 ++ (c, m1) :: p2)
          ++ (traceDeliveries st es2
            ++ ((q1 ++ (c, m2) :: q2)
              ++ traceDeliveries (applyEvents st es2) es3)) := by
        rw [hsplit1, hsplit2]
    _ = p1 ++ (c, m1) :: ((p2 ++ traceDeliveries st es2 ++ q1)
          ++ (c, m2) :: (q2 ++ traceDeliveries (applyEvents st es2) es3)) := by
        simp [List.append_assoc]

theorem broadcast_order_preserved_per_member_witness :
    (Message.mk "a" "first" "g" "t1").room = (Message.mk "a" "second" "g" "t2").room ∧
      (∀ e ∈ ([] : List Event),
        touchesRoom (Message.mk "a" "first" "g" "t1").room e = false) ∧
      1 ∈ roomMembers (Message.mk "a" "first" "g" "t1").room
          (applyEvents initState [Event.connect 1 (some "g")]) ∧
      ∃ l1 l2 l3,
        traceDeliveries (applyEvents initState [Event.connect 1 (some "g")])
            (Event.sendMessage 1 (Message.mk "a" "first" "g" "t1")
              :: ([] ++ Event.sendMessage 1 (Message.mk "a" "second" "g" "t2") :: []))
          = l1 ++ (1, Message.mk "a" "first" "g" "t1")
              :: (l2 ++ (1, Message.mk "a" "second" "g" "t2") :: l3) :=
  ⟨rfl, by simp,
    by decide,
    broadcast_order_preserved_per_member
      (applyEvents initState [Event.connect 1 (some "g")]) [] [] 1 1 1
      (Message.mk "a" "first" "g" "t1") (Message.mk "a" "second" "g" "t2")
      rfl (by simp) (by decide)⟩

set_option maxRecDepth 8192

/-- C10: the listen port is `Number(process.env.CHAT_PORT) || 3001`: it
equals the numeric value of `CHAT_PORT` whenever that value is a non-zero
number (including the infinities, which are truthy), and falls back to the
default 3001 whenever `CHAT_PORT` is unset (`Number(undefined)` is `NaN`),
empty (`Number("")` is `0`), non-numeric (`NaN`), or zero — witnessed on the
concrete inputs `none`, `""`, `"abc"`, `"0"`, `"8080"`, and on the
JS-numeric forms `"1.5"`, `"0x1F4"`, `"1e3"`, `"Infinity"`, and the
underflowing `"1e-400"` (zero, hence the default). -/
theorem port_env_fallback :
    (∀ env : Option String, ∀ q : ℚ,
        jsNumber env = JsNum.num q → ¬ q = 0 → port env = JsNum.num q) ∧
      (∀ env : Option String, ∀ b : Bool,
        jsNumber env = JsNum.inf b → port env = JsNum.inf b) ∧
      (∀ env : Option String,
        jsNumber env = JsNum.nan ∨ jsNumber env = JsNum.num 0 →
          port env = JsNum.num 3001) ∧
      port none = JsNum.num 3001 ∧
      port (some "") = JsNum.num 3001 ∧
      port (some "abc") = JsNum.num 3001 ∧
      port (some "0") = JsNum.num 3001 ∧
      port (some "8080") = JsNum.num 8080 ∧
      port (some "1.5") = JsNum.num (mkRat 3 2) ∧
      port (some "0x1F4") = JsNum.num 500 ∧
      port (some "1e3") = JsNum.num 1000 ∧
      port (some "Infinity") = JsNum.inf false ∧
      port (some "1e-400") = JsNum.num 3001 := by
  refine ⟨?_, ?_, ?_, by decide, by decide, by decide, by decide, by decide,
    by decide, by decide, by decide, by decide, by decide⟩
  · intro env q h hq
    simp [port, jsOrDefault, h, hq]
  · intro env b h
    simp [port, jsOrDefault, h]
  · intro env h
    rcases h with h | h <;> simp [port, jsOrDefault, h]

theorem port_env_fallback_witness :
    jsNumber (some "3002") = JsNum.num 3002 ∧ ¬ (3002 : ℚ) = 0 ∧
      port (some "3002") = JsNum.num 3002 :=
  ⟨by decide, by decide, port_env_fallback.1 (some "3002") 3002 (by decide) (by decide)⟩
